import Mathlib

/-!
Verification of the `pers` persistent-daemon program (`src/pers.cpp`).

The development shallowly embeds the daemon's command-processing code:
C++ strings become `List Char`, the `std::unordered_map` state becomes an
association list, and the blocking FIFO I/O of the serving loop becomes a
list of externally supplied events (open failure, short read, or a request
arriving with a given uptime and a flag telling whether a response reader
was attached).  Fallible C++ operations that can throw (such as
`std::string::substr` past the end) are embedded with `Option`, `none`
standing for an uncaught exception that terminates the process.
-/

namespace Pers

/-- C++ `std::string` payloads are modelled as lists of characters. -/
abbrev Str := List Char

/-- The NUL byte: `std::string request(buffer)` truncates at the first NUL. -/
def nul : Char := Char.ofNat 0

/-- True for every byte other than NUL. -/
def notNul (c : Char) : Bool := !(c == nul)

/-- The classic-locale whitespace set used by `istream >> string` extraction:
space, tab, newline, vertical tab, form feed, carriage return. -/
def isWs (c : Char) : Bool :=
  c == ' ' || c == '\t' || c == '\n' || c == Char.ofNat 11 || c == Char.ofNat 12 || c == '\r'

/-- Negation of `isWs`, used for token extraction. -/
def notWs (c : Char) : Bool := !(isWs c)

/-- The character set of `key.find_last_not_of(" \n\r\t")` in the GET handler. -/
def isTrimChar (c : Char) : Bool :=
  c == ' ' || c == '\n' || c == '\r' || c == '\t'

/-- True for every character other than `'\n'`, the `std::getline` delimiter. -/
def notNl (c : Char) : Bool := !(c == '\n')

/-- Splits a whitespace-stripped stream into its first token and the
unconsumed remainder; fails on an empty stream. -/
def tokenOf : Str → Option (Str × Str)
  | [] => none
  | c :: cs => some ((c :: cs).takeWhile notWs, (c :: cs).dropWhile notWs)

/-- Embeds `iss >> key` on an `istringstream`: skip leading whitespace, then
take the maximal non-whitespace token; fails (`none`) when nothing but
whitespace remains.  Returns the token and the unconsumed remainder
(the delimiting whitespace is not consumed). -/
def extractToken (s : Str) : Option (Str × Str) :=
  tokenOf (s.dropWhile isWs)

/-- Embeds `std::getline(iss, value)`: fails on an exhausted stream (which is
also the case when the preceding token extraction stopped at end of input and
set `eofbit`); otherwise reads up to and excluding `'\n'`, consuming the
delimiter, and succeeds even when the line is empty. -/
def getlineFn (s : Str) : Option (Str × Str) :=
  match s with
  | [] => none
  | c :: cs =>
    some ((c :: cs).takeWhile notNl, ((c :: cs).dropWhile notNl).drop 1)

/-- Embeds `value.substr(1)`: throws `std::out_of_range` (here `none`) when
the string is empty, otherwise drops the first character. -/
def substr1 (s : Str) : Option Str :=
  match s with
  | [] => none
  | _ :: cs => some cs

/-- Embeds `key.erase(key.find_last_not_of(" \n\r\t") + 1)`: removes the
maximal trailing run of space, newline, carriage return and tab. -/
def trimTrailing (s : Str) : Str :=
  (s.reverse.dropWhile isTrimChar).reverse

/-- The daemon's `std::unordered_map<std::string, std::string>` state,
modelled as an association list with unique keys. -/
abbrev Store := List (Str × Str)

/-- Embeds `state.find(key)`. -/
def findS : Store → Str → Option Str
  | [], _ => none
  | (k, v) :: rest, key => if k = key then some v else findS rest key

/-- Embeds `state[key] = value`: overwrite the entry when the key is present,
otherwise add a fresh entry. -/
def insertS : Store → Str → Str → Store
  | [], key, val => [(key, val)]
  | (k, v) :: rest, key, val =>
    if k = key then (k, val) :: rest else (k, v) :: insertS rest key val

/-- The mutable daemon context: the key/value store and the query counter. -/
structure DState where
  store : Store
  query_count : Nat
deriving DecidableEq

/-- The store seeded at daemon start: `version -> 1.0`, `status -> running`. -/
def initStore : Store :=
  insertS (insertS [] ("version".toList) ("1.0".toList)) ("status".toList) ("running".toList)

/-- The daemon context on entering the serving loop. -/
def initState : DState := ⟨initStore, 0⟩

/-- The STATUS response text, built exactly as the concatenation in the code:
queries is the pre-incremented counter, uptime the elapsed whole seconds and
the entry count the current store size. -/
def statusResp (q u e : Nat) : Str :=
  "Status: Running\n".toList ++
  ("Queries: ".toList ++ (Nat.repr q).toList ++ "\n".toList) ++
  ("Uptime: ".toList ++ (Nat.repr u).toList ++ " seconds\n".toList) ++
  ("State entries: ".toList ++ (Nat.repr e).toList ++ "\n".toList)

/-- Response `"ERROR: Invalid SET command"`. -/
def invalidSet : Str := "ERROR: Invalid SET command".toList

/-- Response `"OK: Set " + key + " = " + value`. -/
def okSetResp (k v : Str) : Str := "OK: Set ".toList ++ k ++ " = ".toList ++ v

/-- Response `"VALUE: " + it->second`. -/
def valueResp (v : Str) : Str := "VALUE: ".toList ++ v

/-- Response `"ERROR: Key not found"`. -/
def notFoundResp : Str := "ERROR: Key not found".toList

/-- Response `"Shutting down..."`. -/
def shutdownResp : Str := "Shutting down...".toList

/-- The unknown-command response listing the valid command forms. -/
def unknownResp : Str :=
  "ERROR: Unknown command. Use STATUS, GET <key>, SET <key> <value>, or SHUTDOWN".toList

/-- The SET handler body, applied to `request.substr(4)`:
`istringstream iss(arg); if (iss >> key && std::getline(iss, value))` then
`value = value.substr(1); state[key] = value;` else the invalid-SET error.
`none` models the uncaught `std::out_of_range` from `substr(1)` on an empty
extracted value. -/
def doSet (arg : Str) (s : DState) : Option (Str × DState × Bool) :=
  match extractToken arg with
  | none => some (invalidSet, s, false)
  | some (key, rest) =>
    match getlineFn rest with
    | none => some (invalidSet, s, false)
    | some (value, _) =>
      match substr1 value with
      | none => none
      | some v => some (okSetResp key v, ⟨insertS s.store key v, s.query_count⟩, false)

/-- The GET handler body, applied to `request.substr(4)`: trim the trailing
`" \n\r\t"` run from the key, then look it up; the store is never mutated. -/
def doGet (arg : Str) (s : DState) : Option (Str × DState × Bool) :=
  match findS s.store (trimTrailing arg) with
  | some v => some (valueResp v, s, false)
  | none => some (notFoundResp, s, false)

/-- One dispatch of the serving loop on an already-read request string,
given the elapsed uptime in whole seconds.  The result carries the response,
the updated context and the shutdown flag (`true` exactly for `SHUTDOWN`,
which breaks the loop); `none` models a crash of the daemon process. -/
def process_request (req : Str) (s : DState) (uptime : Nat) : Option (Str × DState × Bool) :=
  if req = "STATUS".toList then
    some (statusResp (s.query_count + 1) uptime s.store.length,
          ⟨s.store, s.query_count + 1⟩, false)
  else if req.take 4 = "SET ".toList then
    doSet (req.drop 4) s
  else if req.take 4 = "GET ".toList then
    doGet (req.drop 4) s
  else if req = "SHUTDOWN".toList then
    some (shutdownResp, s, true)
  else
    some (unknownResp, s, false)

/-- Embeds the read step of the loop: the 1024-byte zeroed buffer admits at
most 1023 bytes, and `std::string request(buffer)` truncates at the first
NUL byte. -/
def mkRequest (bs : Str) : Str := (bs.take 1023).takeWhile notNul

/-- One iteration's external behaviour of the blocking FIFO I/O:
the request-FIFO open can fail, the read can return no bytes, or a request
arrives carrying its raw bytes, the current uptime in seconds, and whether a
reader is attached to the response FIFO when the daemon opens it. -/
inductive Ev where
  | openFail : Ev
  | readNone : Ev
  | req (bs : Str) (uptime : Nat) (respOk : Bool) : Ev
deriving DecidableEq

/-- One full loop iteration on one event: open failure and empty reads are
no-ops (`continue`); a request is processed, and its response is delivered
only when the response FIFO open succeeds (otherwise it is silently
dropped).  `none` models a crash. -/
def stepEv (s : DState) : Ev → Option (DState × Option Str × Bool)
  | Ev.openFail => some (s, none, false)
  | Ev.readNone => some (s, none, false)
  | Ev.req bs u respOk =>
    match process_request (mkRequest bs) s u with
    | none => none
    | some (r, s2, shut) => some (s2, if respOk then some r else none, shut)

/-- The list of responses actually written for one iteration. -/
def optToList : Option Str → List Str
  | none => []
  | some r => [r]

/-- Outcome of running the serving loop on a finite event list: the daemon
crashed, broke out of the loop after a `SHUTDOWN`, or consumed all events
and is still serving.  Each outcome carries the responses written so far. -/
inductive RunOut where
  | crash (sent : List Str) : RunOut
  | shutdown (s : DState) (sent : List Str) : RunOut
  | serving (s : DState) (sent : List Str) : RunOut
deriving DecidableEq

/-- The serving loop of `daemon_main`, driven by an event list.  A `SHUTDOWN`
breaks the loop at once: later events are never examined. -/
def runLoop (s : DState) : List Ev → RunOut
  | [] => RunOut.serving s []
  | e :: es =>
    match stepEv s e with
    | none => RunOut.crash []
    | some (s2, r, true) => RunOut.shutdown s2 (optToList r)
    | some (s2, r, false) =>
      match runLoop s2 es with
      | RunOut.crash rs => RunOut.crash (optToList r ++ rs)
      | RunOut.shutdown t rs => RunOut.shutdown t (optToList r ++ rs)
      | RunOut.serving t rs => RunOut.serving t (optToList r ++ rs)

/-- The daemon context at the end of a run, when the daemon is still alive:
the crash outcome has no context. -/
def finalState : RunOut → Option DState
  | RunOut.crash _ => none
  | RunOut.shutdown s _ => some s
  | RunOut.serving s _ => some s

/-- No entry of the store has the empty string as its key. -/
@[reducible] def noEmptyKey (st : Store) : Prop := ∀ p ∈ st, p.1 ≠ []

/-- Counts the events whose decoded request is exactly `STATUS` — the only
command that increments the query counter. -/
def isStatusEv : Ev → Bool
  | Ev.openFail => false
  | Ev.readNone => false
  | Ev.req bs _ _ => if mkRequest bs = "STATUS".toList then true else false

/-- Number of STATUS requests in an event list. -/
def countStatus (evs : List Ev) : Nat := (evs.filter isStatusEv).length

/-- Existence of the three filesystem artifacts: request FIFO, response FIFO
and the PID liveness marker. -/
structure Fs where
  fifoReq : Bool
  fifoResp : Bool
  pidFile : Bool
deriving DecidableEq

/-- The artifact state while the daemon serves: both FIFOs created by
`mkfifo` and the PID file written by `daemonize`. -/
def servingFs : Fs := ⟨true, true, true⟩

/-- The cleanup after the loop: `unlink(FIFO_REQUEST); unlink(FIFO_RESPONSE);
unlink(PID_FILE);`. -/
def daemon_teardown (f : Fs) : Fs :=
  { { { f with fifoReq := false } with fifoResp := false } with pidFile := false }

/-- The artifacts left by `daemon_main` after consuming the events: cleanup
runs only when the loop is left through `SHUTDOWN`; a crash skips it; while
still serving there is no final state (`none`). -/
def daemon_final_fs (evs : List Ev) : Option Fs :=
  match runLoop initState evs with
  | RunOut.crash _ => some servingFs
  | RunOut.shutdown _ _ => some (daemon_teardown servingFs)
  | RunOut.serving _ _ => none

/-- Embeds `send_request`: the open of the request FIFO and of the response
FIFO can each fail, and the response read returns a (possibly empty) byte
list; the error strings are the literals of the code.  A non-empty read is
returned as `std::string(buffer, bytes)`, i.e. the bytes themselves. -/
def send_request (reqOpenOk respOpenOk : Bool) (readBytes : Str) : Str :=
  if reqOpenOk = false then
    "ERROR: Cannot connect to daemon".toList
  else if respOpenOk = false then
    "ERROR: Cannot read response".toList
  else if readBytes.length = 0 then
    "ERROR: No response".toList
  else
    readBytes

/-- Value of a digit string, most significant first. -/
def digitsToNat (s : Str) : Nat := s.foldl (fun a c => a * 10 + (c.toNat - 48)) 0

/-- Embeds `pid_file >> pid` on the marker content: skip leading whitespace,
accept an optional sign followed by at least one digit; `none` when the
extraction fails (in which case C++11 stores `0` into `pid`). -/
def parsePid (s : Str) : Option Int :=
  match s.dropWhile isWs with
  | '-' :: r =>
    let ds := r.takeWhile Char.isDigit
    if ds = [] then none else some (-(digitsToNat ds : Int))
  | '+' :: r =>
    let ds := r.takeWhile Char.isDigit
    if ds = [] then none else some ((digitsToNat ds : Int))
  | t =>
    let ds := t.takeWhile Char.isDigit
    if ds = [] then none else some ((digitsToNat ds : Int))

/-- Embeds `is_daemon_running`: `marker` is the PID file content when the
file exists, and `alive p` is the outcome of `kill(p, 0) == 0`.  On a failed
extraction the C++11 stream writes `0` into `pid`, so the probe is made on
process id 0 — which POSIX interprets as the caller's own process group. -/
def is_daemon_running (marker : Option Str) (alive : Int → Bool) : Bool :=
  match marker with
  | none => false
  | some content => alive ((parsePid content).getD 0)

/-! ### General lemmas about the string-processing helpers -/

/-- A list whose members all pass `p`, followed by a failing element, is
taken whole by `takeWhile`. -/
theorem takeWhile_append_stop (p : Char → Bool) (x : Char) (r l : Str)
    (hx : p x = false) (h : ∀ c ∈ l, p c = true) :
    (l ++ x :: r).takeWhile p = l := by
  induction l with
  | nil => simp [List.takeWhile_cons, hx]
  | cons a t ih =>
    have ha : p a = true := h a (List.mem_cons_self a t)
    have ht : ∀ c ∈ t, p c = true := fun c hc => h c (List.mem_cons_of_mem a hc)
    simp only [List.cons_append, List.takeWhile_cons_of_pos ha, ih ht]

/-- Companion of `takeWhile_append_stop` for `dropWhile`. -/
theorem dropWhile_append_stop (p : Char → Bool) (x : Char) (r l : Str)
    (hx : p x = false) (h : ∀ c ∈ l, p c = true) :
    (l ++ x :: r).dropWhile p = x :: r := by
  induction l with
  | nil => simp [List.dropWhile_cons, hx]
  | cons a t ih =>
    have ha : p a = true := h a (List.mem_cons_self a t)
    have ht : ∀ c ∈ t, p c = true := fun c hc => h c (List.mem_cons_of_mem a hc)
    simp only [List.cons_append, List.dropWhile_cons_of_pos ha, ih ht]

/-- The head of a non-empty `dropWhile` result fails the predicate. -/
theorem dropWhile_head_false (p : Char → Bool) (l : Str) :
    ∀ c cs, l.dropWhile p = c :: cs → p c = false := by
  induction l with
  | nil => intro c cs h; simp [List.dropWhile] at h
  | cons a t ih =>
    intro c cs h
    by_cases hpa : p a = true
    · rw [List.dropWhile_cons_of_pos hpa] at h
      exact ih c cs h
    · rw [List.dropWhile_cons_of_neg hpa] at h
      injection h with h1 h2
      subst h1
      simpa using hpa

/-- A request short enough for the buffer and free of NUL bytes is decoded
unchanged by the read step. -/
theorem mkRequest_eq_self (bs : Str) (h1 : bs.length ≤ 1023)
    (h2 : ∀ c ∈ bs, notNul c = true) : mkRequest bs = bs := by
  unfold mkRequest
  rw [List.take_of_length_le h1, List.takeWhile_eq_self_iff.mpr h2]

/-- A successfully extracted token is non-empty. -/
theorem extractToken_some_ne_nil (s t r : Str)
    (h : extractToken s = some (t, r)) : t ≠ [] := by
  unfold extractToken at h
  cases hd : s.dropWhile isWs with
  | nil => rw [hd] at h; exact absurd h (by simp [tokenOf])
  | cons c cs =>
    rw [hd] at h
    have hc : isWs c = false := dropWhile_head_false isWs s c cs hd
    have hcn : notWs c = true := by simp [notWs, hc]
    simp only [tokenOf, Option.some.injEq, Prod.mk.injEq] at h
    obtain ⟨h1, -⟩ := h
    rw [List.takeWhile_cons_of_pos hcn] at h1
    intro hnil
    rw [hnil] at h1
    exact List.cons_ne_nil _ _ h1

/-- Extraction on a non-empty whitespace-free token followed by a space
returns the token and leaves the space unconsumed. -/
theorem extractToken_token_sep (k v : Str) (hk : k ≠ [])
    (hkw : ∀ c ∈ k, notWs c = true) :
    extractToken (k ++ ' ' :: v) = some (k, ' ' :: v) := by
  obtain ⟨c, cs, rfl⟩ := List.exists_cons_of_ne_nil hk
  have hc : notWs c = true := hkw c (List.mem_cons_self c cs)
  have hcw : isWs c = false := by simpa [notWs] using hc
  have hsep : notWs ' ' = false := by decide
  unfold extractToken
  rw [List.cons_append, List.dropWhile_cons_of_neg (by simp [hcw])]
  simp only [tokenOf]
  rw [← List.cons_append c cs (' ' :: v)]
  rw [takeWhile_append_stop notWs ' ' v (c :: cs) hsep hkw]
  rw [dropWhile_append_stop notWs ' ' v (c :: cs) hsep hkw]

/-- A string whose characters are all non-whitespace is unchanged by the
GET key trimming. -/
theorem trimTrailing_no_ws (k : Str) (h : ∀ c ∈ k, notWs c = true) :
    trimTrailing k = k := by
  unfold trimTrailing
  cases hk : k.reverse with
  | nil =>
    have : k = [] := by
      have := congrArg List.reverse hk
      simpa using this
    simp [this]
  | cons c cs =>
    have hc : c ∈ k := by
      have hmem : c ∈ k.reverse := by rw [hk]; exact List.mem_cons_self _ _
      exact List.mem_reverse.mp hmem
    have hcw : notWs c = true := h c hc
    have htrim : isTrimChar c = false := by
      have hw : isWs c = false := by simpa [notWs] using hcw
      revert hw
      unfold isWs isTrimChar
      cases h1 : (c == ' ') <;> cases h2 : (c == '\t') <;> cases h3 : (c == '\n')
        <;> cases h4 : (c == '\r') <;> simp [h1, h2, h3, h4]
    rw [List.dropWhile_cons_of_neg (by simp [htrim])]
    rw [← hk, List.reverse_reverse]

/-! ### Lemmas about the store -/

/-- Looking up the key just inserted returns the inserted value. -/
theorem findS_insert_self (st : Store) (k v : Str) :
    findS (insertS st k v) k = some v := by
  induction st with
  | nil => simp [insertS, findS]
  | cons a t ih =>
    obtain ⟨ak, av⟩ := a
    by_cases hak : ak = k
    · simp [insertS, hak, findS]
    · simp [insertS, hak, findS, ih]

/-- Insertion of a non-empty key preserves the no-empty-key invariant. -/
theorem noEmptyKey_insert (st : Store) (k v : Str) (h : noEmptyKey st)
    (hk : k ≠ []) : noEmptyKey (insertS st k v) := by
  induction st with
  | nil =>
    intro p hp
    simp only [insertS, List.mem_singleton] at hp
    subst hp
    exact hk
  | cons a t ih =>
    intro p hp
    obtain ⟨ak, av⟩ := a
    simp only [insertS] at hp
    by_cases hak : ak = k
    · rw [if_pos hak] at hp
      rcases List.mem_cons.mp hp with h1 | h2
      · subst h1; simpa using hak ▸ hk
      · exact h _ (List.mem_cons_of_mem _ h2)
    · rw [if_neg hak] at hp
      rcases List.mem_cons.mp hp with h1 | h2
      · subst h1; exact h _ (List.mem_cons_self _ _)
      · exact ih (fun q hq => h q (List.mem_cons_of_mem _ hq)) _ h2

/-- In a store without empty keys, looking up the empty key fails. -/
theorem findS_nil_key (st : Store) (h : noEmptyKey st) : findS st [] = none := by
  induction st with
  | nil => rfl
  | cons a t ih =>
    obtain ⟨ak, av⟩ := a
    have hak : ak ≠ [] := h (ak, av) (List.mem_cons_self _ _)
    simp only [findS, if_neg hak]
    exact ih (fun q hq => h q (List.mem_cons_of_mem _ hq))

/-! ### Dispatch lemmas for `process_request` -/

/-- A request starting with `"SET "` dispatches to the SET handler. -/
theorem process_request_set (rest : Str) (s : DState) (u : Nat) :
    process_request ("SET ".toList ++ rest) s u = doSet rest s := rfl

/-- A request starting with `"GET "` dispatches to the GET handler. -/
theorem process_request_get (rest : Str) (s : DState) (u : Nat) :
    process_request ("GET ".toList ++ rest) s u = doGet rest s := rfl

/-- The STATUS dispatch: pre-incremented counter, given uptime, store size. -/
theorem process_request_status (s : DState) (u : Nat) :
    process_request ("STATUS".toList) s u
      = some (statusResp (s.query_count + 1) u s.store.length,
              DState.mk s.store (s.query_count + 1), false) := rfl

/-- The SHUTDOWN dispatch: acknowledgement response, unchanged context,
shutdown flag raised. -/
theorem process_request_shutdown (s : DState) (u : Nat) :
    process_request ("SHUTDOWN".toList) s u = some (shutdownResp, s, true) := rfl

/-! ### Effect lemmas for the handlers -/

/-- The GET handler never changes the daemon context and never crashes or
initiates shutdown. -/
theorem doGet_state (arg : Str) (s : DState) (resp : Str) (s2 : DState)
    (b : Bool) (h : doGet arg s = some (resp, s2, b)) : s2 = s ∧ b = false := by
  unfold doGet at h
  cases hf : findS s.store (trimTrailing arg) with
  | none =>
    simp only [hf, Option.some.injEq, Prod.mk.injEq] at h
    exact ⟨h.2.1.symm, h.2.2.symm⟩
  | some v =>
    simp only [hf, Option.some.injEq, Prod.mk.injEq] at h
    exact ⟨h.2.1.symm, h.2.2.symm⟩

/-- The SET handler never touches the query counter. -/
theorem doSet_query_count (arg : Str) (s : DState) (resp : Str) (s2 : DState)
    (b : Bool) (h : doSet arg s = some (resp, s2, b)) :
    s2.query_count = s.query_count ∧ b = false := by
  unfold doSet at h
  cases het : extractToken arg with
  | none =>
    simp only [het, Option.some.injEq, Prod.mk.injEq] at h
    exact ⟨by rw [← h.2.1], h.2.2.symm⟩
  | some pr =>
    obtain ⟨key, rest⟩ := pr
    simp only [het] at h
    cases hgl : getlineFn rest with
    | none =>
      simp only [hgl, Option.some.injEq, Prod.mk.injEq] at h
      exact ⟨by rw [← h.2.1], h.2.2.symm⟩
    | some pv =>
      obtain ⟨value, rem⟩ := pv
      simp only [hgl] at h
      cases hsb : substr1 value with
      | none => simp only [hsb] at h; exact absurd h (by simp)
      | some v2 =>
        simp only [hsb, Option.some.injEq, Prod.mk.injEq] at h
        exact ⟨by rw [← h.2.1], h.2.2.symm⟩

/-- The SET handler inserts only a non-empty extracted token, so it
preserves the no-empty-key invariant. -/
theorem doSet_preserves_keys (arg : Str) (s : DState) (resp : Str)
    (s2 : DState) (b : Bool) (hs : noEmptyKey s.store)
    (h : doSet arg s = some (resp, s2, b)) : noEmptyKey s2.store := by
  unfold doSet at h
  cases het : extractToken arg with
  | none =>
    simp only [het, Option.some.injEq, Prod.mk.injEq] at h
    rw [← h.2.1]
    exact hs
  | some pr =>
    obtain ⟨key, rest⟩ := pr
    simp only [het] at h
    cases hgl : getlineFn rest with
    | none =>
      simp only [hgl, Option.some.injEq, Prod.mk.injEq] at h
      rw [← h.2.1]
      exact hs
    | some pv =>
      obtain ⟨value, rem⟩ := pv
      simp only [hgl] at h
      cases hsb : substr1 value with
      | none => simp only [hsb] at h; exact absurd h (by simp)
      | some v2 =>
        simp only [hsb, Option.some.injEq, Prod.mk.injEq] at h
        rw [← h.2.1]
        exact noEmptyKey_insert s.store key v2 hs
          (extractToken_some_ne_nil arg key rest het)

/-- Any successful, non-crashing dispatch preserves the no-empty-key
invariant of the store. -/
theorem process_request_preserves_keys (r : Str) (s : DState) (u : Nat)
    (resp : Str) (s2 : DState) (b : Bool) (hs : noEmptyKey s.store)
    (h : process_request r s u = some (resp, s2, b)) : noEmptyKey s2.store := by
  unfold process_request at h
  by_cases h1 : r = "STATUS".toList
  · rw [if_pos h1] at h
    simp only [Option.some.injEq, Prod.mk.injEq] at h
    rw [← h.2.1]
    exact hs
  · rw [if_neg h1] at h
    by_cases h2 : r.take 4 = "SET ".toList
    · rw [if_pos h2] at h
      exact doSet_preserves_keys _ s resp s2 b hs h
    · rw [if_neg h2] at h
      by_cases h3 : r.take 4 = "GET ".toList
      · rw [if_pos h3] at h
        rw [(doGet_state _ s resp s2 b h).1]
        exact hs
      · rw [if_neg h3] at h
        by_cases h4 : r = "SHUTDOWN".toList
        · rw [if_pos h4] at h
          simp only [Option.some.injEq, Prod.mk.injEq] at h
          rw [← h.2.1]
          exact hs
        · rw [if_neg h4] at h
          simp only [Option.some.injEq, Prod.mk.injEq] at h
          rw [← h.2.1]
          exact hs

/-- Exactly a STATUS dispatch increments the query counter; every other
non-crashing, non-shutdown dispatch leaves it unchanged. -/
theorem process_request_query_count (r : Str) (s : DState) (u : Nat)
    (resp : Str) (s2 : DState)
    (h : process_request r s u = some (resp, s2, false)) :
    s2.query_count = s.query_count + (if r = "STATUS".toList then 1 else 0) := by
  unfold process_request at h
  by_cases h1 : r = "STATUS".toList
  · rw [if_pos h1] at h
    rw [if_pos h1]
    simp only [Option.some.injEq, Prod.mk.injEq] at h
    rw [← h.2.1]
  · rw [if_neg h1] at h
    rw [if_neg h1]
    by_cases h2 : r.take 4 = "SET ".toList
    · rw [if_pos h2] at h
      simpa using (doSet_query_count _ s resp s2 false h).1
    · rw [if_neg h2] at h
      by_cases h3 : r.take 4 = "GET ".toList
      · rw [if_pos h3] at h
        rw [(doGet_state _ s resp s2 false h).1]
        simp
      · rw [if_neg h3] at h
        by_cases h4 : r = "SHUTDOWN".toList
        · rw [if_pos h4] at h
          simp at h
        · rw [if_neg h4] at h
          simp only [Option.some.injEq, Prod.mk.injEq] at h
          rw [← h.2.1]
          simp

/-! ### Lemmas about one loop iteration and the serving loop -/

/-- One non-crashing iteration preserves the no-empty-key invariant. -/
theorem stepEv_preserves_keys (s : DState) (e : Ev) (s2 : DState)
    (r : Option Str) (b : Bool) (hs : noEmptyKey s.store)
    (h : stepEv s e = some (s2, r, b)) : noEmptyKey s2.store := by
  cases e with
  | openFail =>
    simp only [stepEv, Option.some.injEq, Prod.mk.injEq] at h
    rw [← h.1]
    exact hs
  | readNone =>
    simp only [stepEv, Option.some.injEq, Prod.mk.injEq] at h
    rw [← h.1]
    exact hs
  | req bs u respOk =>
    unfold stepEv at h
    cases hp : process_request (mkRequest bs) s u with
    | none => simp only [hp] at h; exact absurd h (by simp)
    | some trip =>
      obtain ⟨resp, s3, shut⟩ := trip
      simp only [hp, Option.some.injEq, Prod.mk.injEq] at h
      rw [← h.1]
      exact process_request_preserves_keys _ s u resp s3 shut hs hp

/-- One non-crashing, non-shutdown iteration increments the query counter
exactly when the decoded request is `STATUS`. -/
theorem stepEv_query_count (s : DState) (e : Ev) (s2 : DState)
    (r : Option Str) (h : stepEv s e = some (s2, r, false)) :
    s2.query_count = s.query_count + (if isStatusEv e then 1 else 0) := by
  cases e with
  | openFail =>
    simp only [stepEv, Option.some.injEq, Prod.mk.injEq] at h
    rw [← h.1]
    simp [isStatusEv]
  | readNone =>
    simp only [stepEv, Option.some.injEq, Prod.mk.injEq] at h
    rw [← h.1]
    simp [isStatusEv]
  | req bs u respOk =>
    unfold stepEv at h
    cases hp : process_request (mkRequest bs) s u with
    | none => simp only [hp] at h; exact absurd h (by simp)
    | some trip =>
      obtain ⟨resp, s3, shut⟩ := trip
      simp only [hp, Option.some.injEq, Prod.mk.injEq] at h
      obtain ⟨h1, -, h3⟩ := h
      subst h3
      rw [← h1]
      rw [process_request_query_count (mkRequest bs) s u resp s3 hp]
      simp [isStatusEv]

/-- An iteration that produces no response and keeps the loop running can be
removed from the event list without changing the run. -/
theorem runLoop_cons_noop (s : DState) (e : Ev) (es : List Ev)
    (h : stepEv s e = some (s, none, false)) :
    runLoop s (e :: es) = runLoop s es := by
  simp only [runLoop, h]
  cases runLoop s es <;> simp [optToList]

/-- Unfolding of the STATUS-request count over a cons. -/
theorem countStatus_cons (e : Ev) (es : List Ev) :
    countStatus (e :: es) = (if isStatusEv e then 1 else 0) + countStatus es := by
  unfold countStatus
  rw [List.filter_cons]
  by_cases h : isStatusEv e
  · simp [h, Nat.add_comm]
  · simp [h]

/-- The query counter along any run that is still serving equals its initial
value plus the number of STATUS requests processed. -/
theorem runLoop_query_count (evs : List Ev) : ∀ (s t : DState) (sent : List Str),
    runLoop s evs = RunOut.serving t sent →
    t.query_count = s.query_count + countStatus evs := by
  induction evs with
  | nil =>
    intro s t sent h
    simp only [runLoop, RunOut.serving.injEq] at h
    rw [← h.1]
    simp [countStatus]
  | cons e es ih =>
    intro s t sent h
    simp only [runLoop] at h
    cases hst : stepEv s e with
    | none => simp only [hst] at h; exact RunOut.noConfusion h
    | some trip =>
      obtain ⟨s2, r, b⟩ := trip
      cases b with
      | true => simp only [hst] at h; exact RunOut.noConfusion h
      | false =>
        simp only [hst] at h
        cases hr : runLoop s2 es with
        | crash rs => simp only [hr] at h; exact RunOut.noConfusion h
        | shutdown t2 rs => simp only [hr] at h; exact RunOut.noConfusion h
        | serving t2 rs =>
          simp only [hr] at h
          simp only [RunOut.serving.injEq] at h
          obtain ⟨ht, -⟩ := h
          have h1 := stepEv_query_count s e s2 r hst
          have h2 := ih s2 t2 rs hr
          rw [countStatus_cons, ← ht, h2, h1]
          omega

/-- Any run starting from a store without empty keys ends (when the daemon
is still alive) in a store without empty keys. -/
theorem runLoop_preserves_keys (evs : List Ev) : ∀ (s t : DState),
    noEmptyKey s.store → finalState (runLoop s evs) = some t →
    noEmptyKey t.store := by
  induction evs with
  | nil =>
    intro s t hs h
    simp only [runLoop, finalState, Option.some.injEq] at h
    rw [← h]
    exact hs
  | cons e es ih =>
    intro s t hs h
    simp only [runLoop] at h
    cases hst : stepEv s e with
    | none => simp only [hst, finalState] at h; exact Option.noConfusion h
    | some trip =>
      obtain ⟨s2, r, b⟩ := trip
      have hs2 : noEmptyKey s2.store := stepEv_preserves_keys s e s2 r b hs hst
      cases b with
      | true =>
        simp only [hst, finalState, Option.some.injEq] at h
        rw [← h]
        exact hs2
      | false =>
        simp only [hst] at h
        cases hr : runLoop s2 es with
        | crash rs => simp only [hr, finalState] at h; exact Option.noConfusion h
        | shutdown t2 rs =>
          simp only [hr, finalState, Option.some.injEq] at h
          rw [← h]
          exact ih s2 t2 hs2 (by rw [hr]; rfl)
        | serving t2 rs =>
          simp only [hr, finalState, Option.some.injEq] at h
          rw [← h]
          exact ih s2 t2 hs2 (by rw [hr]; rfl)

/-- Extending the events of a still-serving run continues it from its final
state, accumulating the responses already written. -/
theorem runLoop_append (pre : List Ev) : ∀ (s t : DState) (sent : List Str)
    (rest : List Ev), runLoop s pre = RunOut.serving t sent →
    runLoop s (pre ++ rest)
      = (match runLoop t rest with
         | RunOut.crash rs => RunOut.crash (sent ++ rs)
         | RunOut.shutdown d rs => RunOut.shutdown d (sent ++ rs)
         | RunOut.serving d rs => RunOut.serving d (sent ++ rs)) := by
  induction pre with
  | nil =>
    intro s t sent rest h
    simp only [runLoop, RunOut.serving.injEq] at h
    obtain ⟨h1, h2⟩ := h
    subst h1
    subst h2
    simp only [List.nil_append]
    cases runLoop s rest <;> simp
  | cons e es ih =>
    intro s t sent rest h
    simp only [runLoop] at h
    simp only [List.cons_append, runLoop]
    cases hst : stepEv s e with
    | none => simp only [hst] at h; exact RunOut.noConfusion h
    | some trip =>
      obtain ⟨s2, r, b⟩ := trip
      cases b with
      | true => simp only [hst] at h; exact RunOut.noConfusion h
      | false =>
        simp only [hst] at h
        simp only [hst]
        cases hr : runLoop s2 es with
        | crash rs => simp only [hr] at h; exact RunOut.noConfusion h
        | shutdown t2 rs => simp only [hr] at h; exact RunOut.noConfusion h
        | serving t2 rs =>
          simp only [hr] at h
          simp only [RunOut.serving.injEq] at h
          obtain ⟨h1, h2⟩ := h
          simp only [List.append_eq]
          rw [ih s2 t2 rs rest hr, h1]
          cases runLoop t rest <;> simp [← h2, List.append_assoc]

/-! ### Claim theorems -/

/-- Claim C1, counterexample to the original statement: with the key
`"a b"` (no control bytes at all) and the value `"c"`, sending
`SET a b c` and then `GET a b` ends with the key-not-found error, whose
payload does not even contain the character of `v`; the round trip fails
because token extraction splits the key at its internal space. -/
theorem set_get_roundtrip_cex :
    runLoop initState [Ev.req ("SET a b c".toList) 0 true,
                       Ev.req ("GET a b".toList) 0 true]
      = RunOut.serving
          (DState.mk (insertS initStore ("a".toList) ("b c".toList)) 0)
          ["OK: Set a = b c".toList, notFoundResp]
    ∧ ('c' ∈ "c".toList ∧ 'c' ∉ notFoundResp) := by decide

/-- Claim C1, amended: for a non-empty key without whitespace or NUL bytes
and a non-empty value without newline or NUL bytes, with both requests
within the 1023-byte read bound, sending `SET k v` and then `GET k` stores
`v` under `k` and answers the GET with a payload whose value part is
exactly `v`. -/
theorem set_get_roundtrip (s : DState) (k v : Str) (u u2 : Nat)
    (hk : k ≠ []) (hkw : ∀ c ∈ k, notWs c = true)
    (hknul : ∀ c ∈ k, notNul c = true)
    (hv : v ≠ []) (hvn : ∀ c ∈ v, notNl c = true)
    (hvnul : ∀ c ∈ v, notNul c = true)
    (hlen1 : ("SET ".toList ++ (k ++ ' ' :: v)).length ≤ 1023)
    (hlen2 : ("GET ".toList ++ k).length ≤ 1023) :
    runLoop s [Ev.req ("SET ".toList ++ (k ++ ' ' :: v)) u true,
               Ev.req ("GET ".toList ++ k) u2 true]
      = RunOut.serving (DState.mk (insertS s.store k v) s.query_count)
          [okSetResp k v, valueResp v] := by
  have hnul1 : ∀ c ∈ ("SET ".toList ++ (k ++ ' ' :: v)), notNul c = true := by
    intro c hc
    rcases List.mem_append.mp hc with h1 | h2
    · exact (by decide : ∀ c ∈ ("SET ".toList : Str), notNul c = true) c h1
    · rcases List.mem_append.mp h2 with h3 | h4
      · exact hknul c h3
      · rcases List.mem_cons.mp h4 with h5 | h6
        · subst h5; decide
        · exact hvnul c h6
  have hnul2 : ∀ c ∈ ("GET ".toList ++ k), notNul c = true := by
    intro c hc
    rcases List.mem_append.mp hc with h1 | h2
    · exact (by decide : ∀ c ∈ ("GET ".toList : Str), notNul c = true) c h1
    · exact hknul c h2
  have hreq1 : mkRequest ("SET ".toList ++ (k ++ ' ' :: v))
      = "SET ".toList ++ (k ++ ' ' :: v) := mkRequest_eq_self _ hlen1 hnul1
  have hreq2 : mkRequest ("GET ".toList ++ k) = "GET ".toList ++ k :=
    mkRequest_eq_self _ hlen2 hnul2
  have htw : (' ' :: v).takeWhile notNl = ' ' :: v := by
    rw [List.takeWhile_cons_of_pos (by decide : notNl ' ' = true)]
    rw [List.takeWhile_eq_self_iff.mpr hvn]
  have hgl : getlineFn (' ' :: v)
      = some (' ' :: v, ((' ' :: v).dropWhile notNl).drop 1) := by
    rw [show getlineFn (' ' :: v)
        = some ((' ' :: v).takeWhile notNl,
                ((' ' :: v).dropWhile notNl).drop 1) from rfl, htw]
  have hstep1 : stepEv s (Ev.req ("SET ".toList ++ (k ++ ' ' :: v)) u true)
      = some (DState.mk (insertS s.store k v) s.query_count,
              some (okSetResp k v), false) := by
    simp only [stepEv]
    rw [hreq1, process_request_set]
    unfold doSet
    simp only [extractToken_token_sep k v hk hkw, hgl]
    rfl
  have htr : trimTrailing k = k := trimTrailing_no_ws k hkw
  have hpr2 : process_request ("GET ".toList ++ k)
        (DState.mk (insertS s.store k v) s.query_count) u2
      = some (valueResp v,
              DState.mk (insertS s.store k v) s.query_count, false) := by
    rw [process_request_get]
    unfold doGet
    rw [htr]
    have hfind : findS (DState.mk (insertS s.store k v) s.query_count).store k
        = some v := findS_insert_self s.store k v
    rw [hfind]
  have hstep2 : stepEv (DState.mk (insertS s.store k v) s.query_count)
        (Ev.req ("GET ".toList ++ k) u2 true)
      = some (DState.mk (insertS s.store k v) s.query_count,
              some (valueResp v), false) := by
    simp only [stepEv]
    rw [hreq2, hpr2]
    rfl
  simp only [runLoop, hstep1, hstep2, optToList]
  rfl

/-- Claim C1, witness of the amended round trip at key `mykey`,
value `myval`, from the seeded initial state. -/
theorem set_get_roundtrip_witness :
    runLoop initState
        [Ev.req ("SET ".toList ++ ("mykey".toList ++ ' ' :: "myval".toList)) 0 true,
         Ev.req ("GET ".toList ++ "mykey".toList) 1 true]
      = RunOut.serving
          (DState.mk (insertS initState.store ("mykey".toList) ("myval".toList))
            initState.query_count)
          [okSetResp ("mykey".toList) ("myval".toList),
           valueResp ("myval".toList)] :=
  set_get_roundtrip initState ("mykey".toList) ("myval".toList) 0 1
    (by decide) (by decide) (by decide) (by decide) (by decide) (by decide)
    (by decide) (by decide)

/-- Claim C2: once a prefix of events leaves the daemon still serving in
context `s`, a `SHUTDOWN` request (with a reader attached) makes the loop
write the acknowledgement as its final response and break at once — later
events are never examined and the final outcome is independent of them —
after which the teardown removes both FIFOs and the PID marker. -/
theorem shutdown_finality (pre post : List Ev) (s : DState)
    (sent : List Str) (u : Nat)
    (h : runLoop initState pre = RunOut.serving s sent) :
    runLoop initState (pre ++ Ev.req ("SHUTDOWN".toList) u true :: post)
      = RunOut.shutdown s (sent ++ [shutdownResp])
    ∧ daemon_final_fs (pre ++ Ev.req ("SHUTDOWN".toList) u true :: post)
      = some (Fs.mk false false false) := by
  have hrun : runLoop s (Ev.req ("SHUTDOWN".toList) u true :: post)
      = RunOut.shutdown s [shutdownResp] := rfl
  have heq : runLoop initState (pre ++ Ev.req ("SHUTDOWN".toList) u true :: post)
      = RunOut.shutdown s (sent ++ [shutdownResp]) := by
    rw [runLoop_append pre initState s sent _ h, hrun]
  refine ⟨heq, ?_⟩
  unfold daemon_final_fs
  rw [heq]
  rfl

/-- Claim C2, witness: `SHUTDOWN` as the first request, with one further
pending event that is never served. -/
theorem shutdown_finality_witness :
    runLoop initState ([] ++ Ev.req ("SHUTDOWN".toList) 0 true :: [Ev.openFail])
      = RunOut.shutdown initState ([] ++ [shutdownResp])
    ∧ daemon_final_fs ([] ++ Ev.req ("SHUTDOWN".toList) 0 true :: [Ev.openFail])
      = some (Fs.mk false false false) :=
  shutdown_finality [] [Ev.openFail] initState [] 0 (by decide)

/-- Claim C3 is violated by the code: on the request `"SET k\n"` the stream
extracts the token `k`, `getline` succeeds with an empty value (it consumes
the bare delimiter), and `value.substr(1)` throws `std::out_of_range`,
which is uncaught — the daemon process terminates (modelled by `none` and
the `crash` outcome) instead of answering with an error payload, and a
following request is never served. -/
theorem set_bare_value_crash :
    process_request ("SET k\n".toList) initState 0 = none
    ∧ runLoop initState [Ev.req ("SET k\n".toList) 0 true,
                         Ev.req ("STATUS".toList) 1 true]
      = RunOut.crash [] := by decide

/-- Claim C4 is violated by the code: when the marker exists but holds no
parsable process identifier (for example `"garbage"`), the C++11 stream
extraction writes `0` into `pid`, and `kill(0, 0)` probes the caller's own
process group — which always succeeds — so `is_daemon_running` returns
`true`, not the `false` the claim requires.  The probe below is the one of
a system in which only the degenerate pid 0 probe succeeds, i.e. no actual
daemon process exists. -/
theorem parse_failure_reports_running :
    parsePid ("garbage".toList) = none
    ∧ is_daemon_running (some ("garbage".toList)) (fun p => p == 0) = true := by
  decide

/-- Claim C5: along any run that is still serving, the query counter equals
the number of STATUS requests processed, and a further STATUS request
reports that running total incremented on the request being served,
together with the status text, the supplied uptime in whole seconds, and
the current number of store entries, leaving the store itself unchanged. -/
theorem status_reports_running_total (evs : List Ev) (s : DState)
    (sent : List Str) (h : runLoop initState evs = RunOut.serving s sent)
    (u : Nat) :
    s.query_count = countStatus evs
    ∧ process_request ("STATUS".toList) s u
        = some (statusResp (countStatus evs + 1) u s.store.length,
                DState.mk s.store (countStatus evs + 1), false) := by
  have hq : s.query_count = countStatus evs := by
    have h0 := runLoop_query_count evs initState s sent h
    simpa [initState] using h0
  refine ⟨hq, ?_⟩
  rw [process_request_status s u, hq]

/-- Claim C5, witness: after one served STATUS request the counter is 1 and
the next STATUS reports 2 queries, the supplied uptime and the 2 seeded
entries. -/
theorem status_reports_running_total_witness :
    (DState.mk initStore 1).query_count
        = countStatus [Ev.req ("STATUS".toList) 3 true]
    ∧ process_request ("STATUS".toList) (DState.mk initStore 1) 9
        = some (statusResp (countStatus [Ev.req ("STATUS".toList) 3 true] + 1) 9
                  (DState.mk initStore 1).store.length,
                DState.mk (DState.mk initStore 1).store
                  (countStatus [Ev.req ("STATUS".toList) 3 true] + 1), false) :=
  status_reports_running_total [Ev.req ("STATUS".toList) 3 true]
    (DState.mk initStore 1) [statusResp 1 3 2] (by decide) 9

/-- Claim C6: a SET request whose argument is a single token with nothing
after it (the stream hits end of input, so `getline` fails) answers with
the invalid-SET error and returns the context unchanged — no entry is
created. -/
theorem set_missing_value (s : DState) (u : Nat) (k : Str)
    (hk : extractToken k = some (k, [])) :
    process_request ("SET ".toList ++ k) s u = some (invalidSet, s, false) := by
  rw [process_request_set]
  unfold doSet
  rw [hk]
  rfl

/-- Claim C6, witness at the spec's example `SET onlykey`. -/
theorem set_missing_value_witness :
    process_request ("SET onlykey".toList) initState 0
      = some (invalidSet, initState, false) :=
  set_missing_value initState 0 ("onlykey".toList) (by decide)

/-- Claim C7: every GET request trims the trailing `" \n\r\t"` run from its
key, answers with the stored value when the trimmed key is present and with
the key-not-found error otherwise, and in both cases returns the context
unchanged — GET never creates an entry. -/
theorem get_frame (s : DState) (k : Str) (u : Nat) :
    process_request ("GET ".toList ++ k) s u
      = some ((match findS s.store (trimTrailing k) with
               | some v => valueResp v
               | none => notFoundResp), s, false) := by
  rw [process_request_get]
  unfold doGet
  cases findS s.store (trimTrailing k) <;> rfl

/-- Claim C8: an iteration whose read returns no bytes is a pure no-op —
no response, no state change — and the loop continues with the remaining
events exactly as if the iteration had not happened. -/
theorem short_read_noop (pre post : List Ev) (s : DState) :
    runLoop s (pre ++ Ev.readNone :: post) = runLoop s (pre ++ post) := by
  induction pre generalizing s with
  | nil =>
    simp only [List.nil_append]
    exact runLoop_cons_noop s Ev.readNone post rfl
  | cons e t ih =>
    simp only [List.cons_append]
    cases hst : stepEv s e with
    | none => simp only [runLoop, hst]
    | some trip =>
      obtain ⟨s2, r, b⟩ := trip
      cases b with
      | true => simp only [runLoop, hst]
      | false =>
        simp only [runLoop, hst]
        rw [ih s2]

/-- Claim C9: the client transaction returns the cannot-connect error when
the request-FIFO open fails, the cannot-read error when the response-FIFO
open fails, the no-response error when zero bytes are read, and otherwise
exactly the bytes read, decoded as text; being a total function it never
throws. -/
theorem send_request_cases :
    (∀ respOk bs, send_request false respOk bs
        = "ERROR: Cannot connect to daemon".toList)
    ∧ (∀ bs, send_request true false bs = "ERROR: Cannot read response".toList)
    ∧ send_request true true [] = "ERROR: No response".toList
    ∧ (∀ c cs, send_request true true (c :: cs) = c :: cs) := by
  refine ⟨fun respOk bs => rfl, fun bs => rfl, rfl, fun c cs => ?_⟩
  simp [send_request]

/-- Claim C10: in every state reachable by the serving loop from the seeded
initial state (still serving or cleanly shut down), no store key is the
empty string, and consequently any GET whose key trims to the empty string
answers with the key-not-found error and leaves the context unchanged. -/
theorem no_empty_key_invariant (evs : List Ev) (t : DState)
    (h : finalState (runLoop initState evs) = some t) :
    noEmptyKey t.store
    ∧ ∀ k u, trimTrailing k = [] →
        process_request ("GET ".toList ++ k) t u
          = some (notFoundResp, t, false) := by
  have hinv : noEmptyKey t.store :=
    runLoop_preserves_keys evs initState t (by decide) h
  refine ⟨hinv, fun k u hk => ?_⟩
  rw [process_request_get]
  unfold doGet
  rw [hk, findS_nil_key t.store hinv]

/-- Claim C10, witness: after `SET a 1` the invariant holds and a GET on a
key consisting of a single space (which trims to empty) is answered with
the key-not-found error. -/
theorem no_empty_key_invariant_witness :
    noEmptyKey (DState.mk (insertS initStore ("a".toList) ("1".toList)) 0).store
    ∧ process_request ("GET ".toList ++ [' '])
          (DState.mk (insertS initStore ("a".toList) ("1".toList)) 0) 0
        = some (notFoundResp,
                DState.mk (insertS initStore ("a".toList) ("1".toList)) 0,
                false) := by
  refine ⟨(no_empty_key_invariant [Ev.req ("SET a 1".toList) 0 true]
      (DState.mk (insertS initStore ("a".toList) ("1".toList)) 0) (by decide)).1,
    (no_empty_key_invariant [Ev.req ("SET a 1".toList) 0 true]
      (DState.mk (insertS initStore ("a".toList) ("1".toList)) 0) (by decide)).2
      [' '] 0 (by decide)⟩

end Pers
